import Mathlib

/-!
Verification of the fragmented-MP4 box decoders of `src/mp4parser/boxes.rs`
(TFHD, TFDT, MDHD, TRUN), embedded shallowly in Lean.

Machine bytes are `Fin 256`; the byte cursor is the list of bytes remaining
in the buffer.  A decoder is a function `Reader → … → Option (Box × Reader)`
returning the decoded record together with the rest of the buffer; `none`
stands for the single insufficient-data error kind.
-/

namespace Mp4

abbrev Byte := Fin 256

/-- Modelled from the spec: the byte-cursor `Reader` abstraction (its source
is not part of the repository snapshot under `src/`; only its callers in
`boxes.rs` are).  Per §4.1 of the spec it offers sequential, bounds-checked,
big-endian reads of fixed-width integers and byte-skips over an in-memory
buffer, failing with an out-of-data error when fewer bytes remain than
required.  We model the cursor as the list of bytes remaining. -/
abbrev Reader := List Byte

/-- Big-endian value of a byte sequence. -/
def beVal : List Byte → Nat
  | [] => 0
  | b :: bs => b.val * 256 ^ bs.length + beVal bs

/-- Reinterpretation of an unsigned 32-bit value as a signed (two's
complement) 32-bit value, as an `Int`. -/
def asSigned32 (v : Nat) : Int :=
  if v < 2 ^ 31 then (v : Int) else (v : Int) - 2 ^ 32

/-- Modelled from the spec: `Reader::read_u16` — big-endian, advances by 2,
fails when fewer than 2 bytes remain. -/
def read_u16 (r : Reader) : Option (Nat × Reader) :=
  if 2 ≤ List.length r then some (beVal (List.take 2 r), List.drop 2 r) else none

/-- Modelled from the spec: `Reader::read_u32`. -/
def read_u32 (r : Reader) : Option (Nat × Reader) :=
  if 4 ≤ List.length r then some (beVal (List.take 4 r), List.drop 4 r) else none

/-- Modelled from the spec: `Reader::read_u64`. -/
def read_u64 (r : Reader) : Option (Nat × Reader) :=
  if 8 ≤ List.length r then some (beVal (List.take 8 r), List.drop 8 r) else none

/-- Modelled from the spec: `Reader::read_i32` — big-endian signed 32-bit,
i.e. the unsigned big-endian value reinterpreted as two's complement. -/
def read_i32 (r : Reader) : Option (Int × Reader) :=
  if 4 ≤ List.length r then some (asSigned32 (beVal (List.take 4 r)), List.drop 4 r) else none

/-- Modelled from the spec: `Reader::skip`. -/
def skip (n : Nat) (r : Reader) : Option Reader :=
  if n ≤ List.length r then some (List.drop n r) else none

/-- `if (flags & bit) != 0 { x = Some(read?) }`: conditionally perform a read,
yielding `some v` when the condition holds and `none` (the absent field)
otherwise.  Shared shape of the flag-guarded reads in `boxes.rs`. -/
def readIf {α : Type} (c : Prop) [Decidable c] (rd : Reader → Option (α × Reader))
    (r : Reader) : Option (Option α × Reader) :=
  if c then (rd r).map (fun p => (some p.1, p.2)) else some (none, r)

/-- `if (flags & bit) != 0 { reader.skip(4)?; }`: conditional skip. -/
def skipIf (c : Prop) [Decidable c] (n : Nat) (r : Reader) : Option Reader :=
  if c then skip n r else some r

/-- `ParsedTFHDBox` of `boxes.rs`. -/
structure ParsedTFHDBox where
  track_id : Nat
  default_sample_duration : Option Nat
  default_sample_size : Option Nat
  base_data_offset : Option Nat
  deriving Repr, DecidableEq

/-- `ParsedTFHDBox::parse` of `boxes.rs`, line for line: read `track_ID`;
if flag 0x000001 read 64-bit `base_data_offset`; if flag 0x000002 skip 4
bytes (`sample_description_index`); if flag 0x000008 read 32-bit
`default_sample_duration`; if flag 0x000010 read 32-bit
`default_sample_size`. -/
def ParsedTFHDBox.parse (r : Reader) (flags : Nat) : Option (ParsedTFHDBox × Reader) :=
  (read_u32 r).bind fun tr =>
  (readIf (flags &&& 0x000001 ≠ 0) read_u64 tr.2).bind fun bdo =>
  (skipIf (flags &&& 0x000002 ≠ 0) 4 bdo.2).bind fun r2 =>
  (readIf (flags &&& 0x000008 ≠ 0) read_u32 r2).bind fun dsd =>
  (readIf (flags &&& 0x000010 ≠ 0) read_u32 dsd.2).bind fun dss =>
  some ({ track_id := tr.1, default_sample_duration := dsd.1,
          default_sample_size := dss.1, base_data_offset := bdo.1 }, dss.2)

/-- `ParsedTFDTBox` of `boxes.rs`. -/
structure ParsedTFDTBox where
  base_media_decode_time : Nat
  deriving Repr, DecidableEq

/-- `ParsedTFDTBox::parse` of `boxes.rs`: a 64-bit read when `version == 1`,
else a 32-bit read widened (`as u64`). -/
def ParsedTFDTBox.parse (r : Reader) (version : Nat) : Option (ParsedTFDTBox × Reader) :=
  (if version = 1 then read_u64 r else read_u32 r).bind fun t =>
  some ({ base_media_decode_time := t.1 }, t.2)

/-- UTF-16 decoding as performed by Rust's `String::from_utf16`: each unit
outside the surrogate range is one scalar value; a high surrogate must be
followed by a low surrogate (together one scalar value); anything else is a
decode error. -/
def decodeUtf16 : List Nat → Option (List Char)
  | [] => some []
  | u :: rest =>
    if u < 0xD800 ∨ 0xDFFF < u then
      match decodeUtf16 rest with
      | some cs => some (Char.ofNat u :: cs)
      | none => none
    else if u ≤ 0xDBFF then
      match rest with
      | [] => none
      | v :: rest2 =>
        if 0xDC00 ≤ v ∧ v ≤ 0xDFFF then
          match decodeUtf16 rest2 with
          | some cs => some (Char.ofNat (0x10000 + (u - 0xD800) * 0x400 + (v - 0xDC00)) :: cs)
          | none => none
        else none
    else none

/-- Rust `String::from_utf16`, as an `Option`-valued function. -/
def fromUtf16 (us : List Nat) : Option String :=
  (decodeUtf16 us).map List.asString

/-- The three 16-bit units built from a packed MDHD language value by
`ParsedMDHDBox::parse`: `(language >> 10) + 0x60`,
`((language & 0x03c0) >> 5) + 0x60`, `(language & 0x1f) + 0x60`. -/
def mdhdLanguageChars (language : Nat) : List Nat :=
  [(language >>> 10) + 0x60, ((language &&& 0x03c0) >>> 5) + 0x60, (language &&& 0x1f) + 0x60]

/-- The language string produced by `ParsedMDHDBox::parse`:
`String::from_utf16(...).unwrap_or("".to_owned())`. -/
def mdhdLanguageString (language : Nat) : String :=
  (fromUtf16 (mdhdLanguageChars language)).getD ""

/-- The spec's words (§4.4): each 5-bit field — bits 10–14, bits 5–9,
bits 0–4 — plus 0x60 yields one character.  Kept separate from
`mdhdLanguageChars` (which follows the code) for comparison: the middle
field differs, as the code masks with 0x03c0 (bits 6–9) instead of taking
all of bits 5–9. -/
def mdhdLanguageCharsSpec (language : Nat) : List Nat :=
  [((language >>> 10) &&& 0x1f) + 0x60, ((language >>> 5) &&& 0x1f) + 0x60,
   (language &&& 0x1f) + 0x60]

/-- `ParsedMDHDBox` of `boxes.rs`. -/
structure ParsedMDHDBox where
  timescale : Nat
  language : String
  deriving Repr, DecidableEq

/-- `ParsedMDHDBox::parse` of `boxes.rs`: skip creation/modification time
(8+8 bytes when `version == 1`, else 4+4), read 32-bit `timescale`, skip
4 bytes of `duration`, read the 16-bit packed language and unpack it. -/
def ParsedMDHDBox.parse (r : Reader) (version : Nat) : Option (ParsedMDHDBox × Reader) :=
  ((if version = 1 then
      (skip 8 r).bind fun r1 => skip 8 r1
    else
      (skip 4 r).bind fun r1 => skip 4 r1) : Option Reader).bind fun r2 =>
  (read_u32 r2).bind fun ts =>
  (skip 4 ts.2).bind fun r3 =>
  (read_u16 r3).bind fun lang =>
  some ({ timescale := ts.1, language := mdhdLanguageString lang.1 }, lang.2)

/-- `ParsedTRUNSample` of `boxes.rs`. -/
structure ParsedTRUNSample where
  sample_duration : Option Nat
  sample_size : Option Nat
  sample_composition_time_offset : Option Int
  deriving Repr, DecidableEq

/-- One iteration of the per-sample loop of `ParsedTRUNBox::parse`:
if flag 0x000100 read 32-bit `sample_duration`; if flag 0x000200 read 32-bit
`sample_size`; if flag 0x000400 skip 4 bytes (`sample_flags`); if flag
0x000800 read the composition time offset — `read_u32()? as i32` when
`version == 0`, else `read_i32()?`. -/
def readTRUNSample (r : Reader) (flags version : Nat) : Option (ParsedTRUNSample × Reader) :=
  (readIf (flags &&& 0x000100 ≠ 0) read_u32 r).bind fun sd =>
  (readIf (flags &&& 0x000200 ≠ 0) read_u32 sd.2).bind fun ss =>
  (skipIf (flags &&& 0x000400 ≠ 0) 4 ss.2).bind fun r2 =>
  (readIf (flags &&& 0x000800 ≠ 0)
      (fun rr => if version = 0 then (read_u32 rr).map (fun p => (asSigned32 p.1, p.2))
                 else read_i32 rr) r2).bind fun so =>
  some ({ sample_duration := sd.1, sample_size := ss.1,
          sample_composition_time_offset := so.1 }, so.2)

/-- The `for i in 0..sample_count` loop of `ParsedTRUNBox::parse`, pushing
one decoded sample per iteration, in order. -/
def readTRUNSamples (flags version : Nat) : Nat → Reader → Option (List ParsedTRUNSample × Reader)
  | 0, r => some ([], r)
  | n + 1, r =>
    (readTRUNSample r flags version).bind fun s =>
    (readTRUNSamples flags version n s.2).bind fun ss =>
    some (s.1 :: ss.1, ss.2)

/-- `ParsedTRUNBox` of `boxes.rs`. -/
structure ParsedTRUNBox where
  sample_count : Nat
  sample_data : List ParsedTRUNSample
  data_offset : Option Nat
  deriving Repr, DecidableEq

/-- `ParsedTRUNBox::parse` of `boxes.rs`: read 32-bit `sample_count`; if
flag 0x000001 read 32-bit `data_offset`; if flag 0x000004 skip 4 bytes
(`first_sample_flags`); then run the per-sample loop `sample_count` times. -/
def ParsedTRUNBox.parse (r : Reader) (flags version : Nat) : Option (ParsedTRUNBox × Reader) :=
  (read_u32 r).bind fun sc =>
  (readIf (flags &&& 0x000001 ≠ 0) read_u32 sc.2).bind fun dofs =>
  (skipIf (flags &&& 0x000004 ≠ 0) 4 dofs.2).bind fun r2 =>
  (readTRUNSamples flags version sc.1 r2).bind fun ss =>
  some ({ sample_count := sc.1, sample_data := ss.1, data_offset := dofs.1 }, ss.2)

/-! ### Characterizations of the decoders

Each decoder is a linear chain of guarded reads; we characterize it by the
total number of bytes it requires (a function of flags/version and, for
TRUN, the decoded sample count) and an explicit description of the record
it builds from the byte slices of the input. -/

theorem bind_ite {α β : Type} (c : Prop) [Decidable c] (x y : Option α) (f : α → Option β) :
    (if c then x else y).bind f = if c then x.bind f else y.bind f := by
  split <;> rfl

theorem map_ite {α β : Type} (c : Prop) [Decidable c] (x y : Option α) (f : α → β) :
    (if c then x else y).map f = if c then x.map f else y.map f := by
  split <;> rfl

/-- Total number of bytes `ParsedTFHDBox::parse` requires. -/
def tfhdSize (flags : Nat) : Nat :=
  4 + (if flags &&& 0x000001 ≠ 0 then 8 else 0) + (if flags &&& 0x000002 ≠ 0 then 4 else 0)
    + (if flags &&& 0x000008 ≠ 0 then 4 else 0) + (if flags &&& 0x000010 ≠ 0 then 4 else 0)

/-- The record `ParsedTFHDBox::parse` builds, described by byte offsets. -/
def tfhdView (r : Reader) (flags : Nat) : ParsedTFHDBox :=
  let o2 := 4 + (if flags &&& 0x000001 ≠ 0 then 8 else 0)
  let o3 := o2 + (if flags &&& 0x000002 ≠ 0 then 4 else 0)
  let o4 := o3 + (if flags &&& 0x000008 ≠ 0 then 4 else 0)
  { track_id := beVal (List.take 4 r)
    default_sample_duration :=
      if flags &&& 0x000008 ≠ 0 then some (beVal (List.take 4 (List.drop o3 r))) else none
    default_sample_size :=
      if flags &&& 0x000010 ≠ 0 then some (beVal (List.take 4 (List.drop o4 r))) else none
    base_data_offset :=
      if flags &&& 0x000001 ≠ 0 then some (beVal (List.take 8 (List.drop 4 r))) else none }

theorem tfhd_parse_eq (r : Reader) (flags : Nat) :
    ParsedTFHDBox.parse r flags =
      if tfhdSize flags ≤ List.length r then
        some (tfhdView r flags, List.drop (tfhdSize flags) r)
      else none := by
  by_cases h1 : flags &&& 0x000001 ≠ 0 <;> by_cases h2 : flags &&& 0x000002 ≠ 0 <;>
    by_cases h8 : flags &&& 0x000008 ≠ 0 <;> by_cases h16 : flags &&& 0x000010 ≠ 0 <;>
  · simp only [ParsedTFHDBox.parse, readIf, skipIf, read_u32, read_u64, skip,
      bind_ite, map_ite, Option.map_some', Option.map_none', Option.some_bind,
      Option.none_bind, tfhdSize, tfhdView, h1, h2, h8, h16, ne_eq,
      not_false_eq_true, ite_true, ite_false, List.length_drop, List.drop_drop]
    all_goals ((try split_ifs) <;> first | rfl | omega)

/-- Total number of bytes `ParsedTFDTBox::parse` requires. -/
def tfdtSize (version : Nat) : Nat :=
  if version = 1 then 8 else 4

theorem tfdt_parse_eq (r : Reader) (version : Nat) :
    ParsedTFDTBox.parse r version =
      if tfdtSize version ≤ List.length r then
        some ({ base_media_decode_time := beVal (List.take (tfdtSize version) r) },
              List.drop (tfdtSize version) r)
      else none := by
  by_cases hv : version = 1 <;>
  · simp only [ParsedTFDTBox.parse, read_u64, read_u32, tfdtSize, hv, bind_ite,
      Option.some_bind, Option.none_bind, ite_true, ite_false, if_true, if_false,
      not_false_eq_true, ne_eq]

/-- Total number of bytes `ParsedMDHDBox::parse` requires. -/
def mdhdSize (version : Nat) : Nat :=
  (if version = 1 then 16 else 8) + 10

/-- The record `ParsedMDHDBox::parse` builds, described by byte offsets. -/
def mdhdView (r : Reader) (version : Nat) : ParsedMDHDBox :=
  let s := if version = 1 then 16 else 8
  { timescale := beVal (List.take 4 (List.drop s r))
    language := mdhdLanguageString (beVal (List.take 2 (List.drop (s + 8) r))) }

theorem mdhd_parse_eq (r : Reader) (version : Nat) :
    ParsedMDHDBox.parse r version =
      if mdhdSize version ≤ List.length r then
        some (mdhdView r version, List.drop (mdhdSize version) r)
      else none := by
  by_cases hv : version = 1 <;>
  · simp only [ParsedMDHDBox.parse, read_u32, read_u16, skip, mdhdSize, mdhdView, hv,
      bind_ite, Option.some_bind, Option.none_bind, ite_true, ite_false, if_true, if_false,
      not_false_eq_true, ne_eq, List.length_drop, List.drop_drop]
    all_goals ((try split_ifs) <;> first | rfl | omega)

/-- Number of bytes one iteration of the TRUN per-sample loop requires. -/
def trunSampleSize (flags : Nat) : Nat :=
  (if flags &&& 0x000100 ≠ 0 then 4 else 0) + (if flags &&& 0x000200 ≠ 0 then 4 else 0)
    + (if flags &&& 0x000400 ≠ 0 then 4 else 0) + (if flags &&& 0x000800 ≠ 0 then 4 else 0)

/-- The sample one loop iteration builds, described by byte offsets. -/
def trunSampleView (r : Reader) (flags : Nat) : ParsedTRUNSample :=
  let p1 := if flags &&& 0x000100 ≠ 0 then 4 else 0
  let p3 := p1 + (if flags &&& 0x000200 ≠ 0 then 4 else 0)
    + (if flags &&& 0x000400 ≠ 0 then 4 else 0)
  { sample_duration :=
      if flags &&& 0x000100 ≠ 0 then some (beVal (List.take 4 r)) else none
    sample_size :=
      if flags &&& 0x000200 ≠ 0 then some (beVal (List.take 4 (List.drop p1 r))) else none
    sample_composition_time_offset :=
      if flags &&& 0x000800 ≠ 0 then some (asSigned32 (beVal (List.take 4 (List.drop p3 r))))
      else none }

theorem trunSample_parse_eq (r : Reader) (flags version : Nat) :
    readTRUNSample r flags version =
      if trunSampleSize flags ≤ List.length r then
        some (trunSampleView r flags, List.drop (trunSampleSize flags) r)
      else none := by
  by_cases ha : flags &&& 0x000100 ≠ 0 <;> by_cases hb : flags &&& 0x000200 ≠ 0 <;>
    by_cases hc : flags &&& 0x000400 ≠ 0 <;> by_cases hd : flags &&& 0x000800 ≠ 0 <;>
    by_cases hv : version = 0 <;>
  · simp only [readTRUNSample, readIf, skipIf, read_u32, read_i32, skip,
      bind_ite, map_ite, Option.map_some', Option.map_none', Option.some_bind,
      Option.none_bind, trunSampleSize, trunSampleView, ha, hb, hc, hd, hv, ne_eq,
      not_false_eq_true, ite_true, ite_false, List.length_drop, List.drop_drop]
    all_goals ((try split_ifs) <;> first | rfl | omega)

theorem trunSamples_parse_eq (flags version : Nat) (n : Nat) (r : Reader) :
    readTRUNSamples flags version n r =
      if n * trunSampleSize flags ≤ List.length r then
        some ((List.range n).map
                (fun i => trunSampleView (List.drop (i * trunSampleSize flags) r) flags),
              List.drop (n * trunSampleSize flags) r)
      else none := by
  induction n generalizing r with
  | zero => simp [readTRUNSamples]
  | succ n ih =>
    simp only [readTRUNSamples, trunSample_parse_eq, bind_ite, Option.some_bind,
      Option.none_bind, ih, List.length_drop, List.drop_drop]
    by_cases h0 : trunSampleSize flags ≤ List.length r
    · by_cases h1 : n * trunSampleSize flags ≤ List.length r - trunSampleSize flags
      · have h2 : (n + 1) * trunSampleSize flags ≤ List.length r := by
          rw [Nat.succ_mul] ; omega
        rw [List.range_succ_eq_map]
        simp only [h0, h1, h2, if_true, if_false, ite_true, Option.some_bind,
          List.map_cons, List.map_map, Nat.zero_mul, List.drop_zero,
          Option.some.injEq, Prod.mk.injEq]
        refine ⟨?_, ?_⟩
        · congr 1
          apply List.map_congr_left
          intro i _
          have hi : trunSampleSize flags + i * trunSampleSize flags
              = Nat.succ i * trunSampleSize flags := by
            rw [Nat.succ_mul] ; omega
          simp only [Function.comp_apply, hi]
        · have hn : trunSampleSize flags + n * trunSampleSize flags
              = (n + 1) * trunSampleSize flags := by
            rw [Nat.succ_mul] ; omega
          rw [hn]
      · have h2 : ¬ (n + 1) * trunSampleSize flags ≤ List.length r := by
          rw [Nat.succ_mul] ; omega
        simp [h0, h1, h2]
    · have h2 : ¬ (n + 1) * trunSampleSize flags ≤ List.length r := by
        rw [Nat.succ_mul] ; omega
      simp [h0, h2]

/-- Number of bytes `ParsedTRUNBox::parse` requires before the per-sample
loop starts. -/
def trunHeadSize (flags : Nat) : Nat :=
  4 + (if flags &&& 0x000001 ≠ 0 then 4 else 0) + (if flags &&& 0x000004 ≠ 0 then 4 else 0)

/-- Total number of bytes `ParsedTRUNBox::parse` requires, as a function of
the sample count `n` it decodes from the first four bytes. -/
def trunSize (flags n : Nat) : Nat :=
  trunHeadSize flags + n * trunSampleSize flags

/-- The record `ParsedTRUNBox::parse` builds, described by byte offsets. -/
def trunView (r : Reader) (flags : Nat) : ParsedTRUNBox :=
  let n := beVal (List.take 4 r)
  { sample_count := n
    sample_data :=
      (List.range n).map
        (fun i => trunSampleView
          (List.drop (trunHeadSize flags + i * trunSampleSize flags) r) flags)
    data_offset :=
      if flags &&& 0x000001 ≠ 0 then some (beVal (List.take 4 (List.drop 4 r))) else none }

theorem trun_parse_eq (r : Reader) (flags version : Nat) :
    ParsedTRUNBox.parse r flags version =
      if trunSize flags (beVal (List.take 4 r)) ≤ List.length r then
        some (trunView r flags, List.drop (trunSize flags (beVal (List.take 4 r))) r)
      else none := by
  by_cases h1 : flags &&& 0x000001 ≠ 0 <;> by_cases h4 : flags &&& 0x000004 ≠ 0 <;>
  · simp only [ParsedTRUNBox.parse, readIf, skipIf, read_u32, skip,
      bind_ite, map_ite, Option.map_some', Option.map_none', Option.some_bind,
      Option.none_bind, trunSamples_parse_eq, trunSize, trunHeadSize, trunView,
      h1, h4, ne_eq, not_false_eq_true, ite_true, ite_false,
      List.length_drop, List.drop_drop]
    all_goals ((try split_ifs) <;>
      first
      | rfl
      | omega
      | (simp only [Nat.add_assoc, Nat.add_zero, Nat.zero_add]))

/-! ### Helper lemmas -/

theorem beVal_lt (l : List Byte) : beVal l < 256 ^ List.length l := by
  induction l with
  | nil => simp [beVal]
  | cons b bs ih =>
    have hb : b.val ≤ 255 := Nat.lt_succ_iff.mp b.isLt
    have h1 : b.val * 256 ^ List.length bs ≤ 255 * 256 ^ List.length bs :=
      Nat.mul_le_mul_right _ hb
    have h2 : 256 ^ List.length (b :: bs) = 256 * 256 ^ List.length bs := by
      simp [List.length_cons, Nat.pow_succ, Nat.mul_comm]
    simp only [beVal, h2]
    omega

theorem beVal_take_lt (r : Reader) (n : Nat) : beVal (List.take n r) < 256 ^ n := by
  have h := beVal_lt (List.take n r)
  have hle : List.length (List.take n r) ≤ n := by
    simp [List.length_take]
  calc beVal (List.take n r) < 256 ^ List.length (List.take n r) := h
    _ ≤ 256 ^ n := Nat.pow_le_pow_right (by omega) hle

theorem fromUtf16_three (a b c : Nat) (ha : a < 0xD800) (hb : b < 0xD800) (hc : c < 0xD800) :
    fromUtf16 [a, b, c] = some (List.asString [Char.ofNat a, Char.ofNat b, Char.ofNat c]) := by
  simp [fromUtf16, decodeUtf16, ha, hb, hc, List.asString]

/-- For every 16-bit packed language value, the three units built by the MDHD
decoder lie below the surrogate range, so the text decode succeeds and the
resulting string has three characters — it is never empty. -/
theorem mdhdLanguageString_ne_empty (lang : Nat) (hl : lang < 65536) :
    mdhdLanguageString lang ≠ "" := by
  have ha : (lang >>> 10) + 0x60 < 0xD800 := by
    have : lang >>> 10 = lang / 1024 := by
      rw [Nat.shiftRight_eq_div_pow]
    omega
  have hb : ((lang &&& 0x03c0) >>> 5) + 0x60 < 0xD800 := by
    have h1 : lang &&& 0x03c0 ≤ 0x03c0 := Nat.and_le_right
    have : (lang &&& 0x03c0) >>> 5 = (lang &&& 0x03c0) / 32 := by
      rw [Nat.shiftRight_eq_div_pow]
    omega
  have hc : (lang &&& 0x1f) + 0x60 < 0xD800 := by
    have h1 : lang &&& 0x1f ≤ 0x1f := Nat.and_le_right
    omega
  have := fromUtf16_three _ _ _ ha hb hc
  simp only [mdhdLanguageString, mdhdLanguageChars, this, Option.getD_some]
  intro hcon
  have := congrArg String.data hcon
  simp [List.asString] at this

/-! ### Claims -/

/-- C1: the claim says the MDHD language characters come from the 5-bit
fields at bits 10–14, bits 5–9 and bits 0–4, each plus 0x60.  The code (and
its own comment, which promises three 5-bit fields) disagrees on the middle
character: it masks with 0x03c0, i.e. bits 6–9 only, dropping bit 5.  At the
packed value 0x0020 (middle 5-bit field = 1) the code yields the unit 0x60
where the claimed extraction yields 0x61, so the decoded text is three
backquote characters instead of a backquote, an a, and a backquote. -/
theorem c1_mdhd_middle_field_bug :
    mdhdLanguageChars 0x0020 = [0x60, 0x60, 0x60] ∧
    mdhdLanguageCharsSpec 0x0020 = [0x60, 0x61, 0x60] ∧
    mdhdLanguageChars 0x0020 ≠ mdhdLanguageCharsSpec 0x0020 ∧
    mdhdLanguageString 0x0020 = "```" := by
  refine ⟨by decide, by decide, by decide, ?_⟩
  decide

/-- C2: whenever the TFHD decoder succeeds, each optional field is present
iff its flag bit is set (base data offset for 0x000001, default sample
duration for 0x000008, default sample size for 0x000010), the mandatory
track identifier is the first 32-bit word, and the conditional reads and
the sample-description-index skip consume the on-wire bytes in the fixed
order base-data-offset (8 bytes), skip (4), duration (4), size (4) — each
field's value is the big-endian value of exactly the byte range its
position in that order dictates, and the cursor ends up past all of them. -/
theorem c2_tfhd_flag_presence (r : Reader) (flags : Nat) (box : ParsedTFHDBox) (rest : Reader)
    (h : ParsedTFHDBox.parse r flags = some (box, rest)) :
    (box.base_data_offset.isSome = true ↔ flags &&& 0x000001 ≠ 0) ∧
    (box.default_sample_duration.isSome = true ↔ flags &&& 0x000008 ≠ 0) ∧
    (box.default_sample_size.isSome = true ↔ flags &&& 0x000010 ≠ 0) ∧
    box.track_id = beVal (List.take 4 r) ∧
    (flags &&& 0x000001 ≠ 0 →
      box.base_data_offset = some (beVal (List.take 8 (List.drop 4 r)))) ∧
    (flags &&& 0x000008 ≠ 0 →
      box.default_sample_duration = some (beVal (List.take 4 (List.drop
        (4 + (if flags &&& 0x000001 ≠ 0 then 8 else 0)
           + (if flags &&& 0x000002 ≠ 0 then 4 else 0)) r)))) ∧
    (flags &&& 0x000010 ≠ 0 →
      box.default_sample_size = some (beVal (List.take 4 (List.drop
        (4 + (if flags &&& 0x000001 ≠ 0 then 8 else 0)
           + (if flags &&& 0x000002 ≠ 0 then 4 else 0)
           + (if flags &&& 0x000008 ≠ 0 then 4 else 0)) r)))) ∧
    rest = List.drop (tfhdSize flags) r := by
  rw [tfhd_parse_eq] at h
  split at h
  · rw [Option.some.injEq, Prod.mk.injEq] at h
    obtain ⟨hbox, hrest⟩ := h
    subst hbox
    subst hrest
    refine ⟨?_, ?_, ?_, rfl, ?_, ?_, ?_, rfl⟩ <;>
      simp only [tfhdView] <;> split_ifs <;> simp_all
  · exact absurd h (by simp)

/-- C2 witness: flags 0x1B (all four tested bits set) on a concrete 24-byte
buffer. -/
theorem c2_witness :
    (((⟨1, some 4, some 5, some 2⟩ : ParsedTFHDBox).base_data_offset.isSome = true
        ↔ (0x1B : Nat) &&& 0x000001 ≠ 0) ∧
     ((⟨1, some 4, some 5, some 2⟩ : ParsedTFHDBox).default_sample_duration.isSome = true
        ↔ (0x1B : Nat) &&& 0x000008 ≠ 0) ∧
     ((⟨1, some 4, some 5, some 2⟩ : ParsedTFHDBox).default_sample_size.isSome = true
        ↔ (0x1B : Nat) &&& 0x000010 ≠ 0) ∧
     (⟨1, some 4, some 5, some 2⟩ : ParsedTFHDBox).track_id =
        beVal (List.take 4 ([0,0,0,1, 0,0,0,0,0,0,0,2, 0,0,0,3, 0,0,0,4, 0,0,0,5] : Reader)) ∧
     ((0x1B : Nat) &&& 0x000001 ≠ 0 →
      (⟨1, some 4, some 5, some 2⟩ : ParsedTFHDBox).base_data_offset =
        some (beVal (List.take 8 (List.drop 4
          ([0,0,0,1, 0,0,0,0,0,0,0,2, 0,0,0,3, 0,0,0,4, 0,0,0,5] : Reader))))) ∧
     ((0x1B : Nat) &&& 0x000008 ≠ 0 →
      (⟨1, some 4, some 5, some 2⟩ : ParsedTFHDBox).default_sample_duration =
        some (beVal (List.take 4 (List.drop
          (4 + (if (0x1B : Nat) &&& 0x000001 ≠ 0 then 8 else 0)
             + (if (0x1B : Nat) &&& 0x000002 ≠ 0 then 4 else 0))
          ([0,0,0,1, 0,0,0,0,0,0,0,2, 0,0,0,3, 0,0,0,4, 0,0,0,5] : Reader))))) ∧
     ((0x1B : Nat) &&& 0x000010 ≠ 0 →
      (⟨1, some 4, some 5, some 2⟩ : ParsedTFHDBox).default_sample_size =
        some (beVal (List.take 4 (List.drop
          (4 + (if (0x1B : Nat) &&& 0x000001 ≠ 0 then 8 else 0)
             + (if (0x1B : Nat) &&& 0x000002 ≠ 0 then 4 else 0)
             + (if (0x1B : Nat) &&& 0x000008 ≠ 0 then 4 else 0))
          ([0,0,0,1, 0,0,0,0,0,0,0,2, 0,0,0,3, 0,0,0,4, 0,0,0,5] : Reader))))) ∧
     ([] : Reader) = List.drop (tfhdSize 0x1B)
        ([0,0,0,1, 0,0,0,0,0,0,0,2, 0,0,0,3, 0,0,0,4, 0,0,0,5] : Reader)) :=
  c2_tfhd_flag_presence [0,0,0,1, 0,0,0,0,0,0,0,2, 0,0,0,3, 0,0,0,4, 0,0,0,5] 0x1B
    ⟨1, some 4, some 5, some 2⟩ [] (by decide)

/-- C3: whenever the TRUN decoder succeeds, the sample list has length
exactly the decoded sample count, its entries are, in order, the samples
decoded from consecutive on-wire chunks (the i-th entry comes from the i-th
chunk after the head), and every sample has the same presence pattern for
duration, size and composition time offset, fixed by the box's flags. -/
theorem c3_trun_sample_list (flags version : Nat) (r : Reader) (box : ParsedTRUNBox)
    (rest : Reader) (h : ParsedTRUNBox.parse r flags version = some (box, rest)) :
    List.length box.sample_data = box.sample_count ∧
    box.sample_data = (List.range box.sample_count).map
      (fun i => trunSampleView
        (List.drop (trunHeadSize flags + i * trunSampleSize flags) r) flags) ∧
    (∀ s ∈ box.sample_data,
      (s.sample_duration.isSome = true ↔ flags &&& 0x000100 ≠ 0) ∧
      (s.sample_size.isSome = true ↔ flags &&& 0x000200 ≠ 0) ∧
      (s.sample_composition_time_offset.isSome = true ↔ flags &&& 0x000800 ≠ 0)) := by
  rw [trun_parse_eq] at h
  split at h
  · rw [Option.some.injEq, Prod.mk.injEq] at h
    obtain ⟨hbox, hrest⟩ := h
    subst hbox
    refine ⟨by simp [trunView], by simp [trunView], ?_⟩
    intro s hs
    simp only [trunView, List.mem_map] at hs
    obtain ⟨i, _, hsv⟩ := hs
    subst hsv
    refine ⟨?_, ?_, ?_⟩ <;> simp only [trunSampleView] <;> split_ifs <;> simp_all
  · exact absurd h (by simp)

/-- C3 witness: flags 0x300 (duration and size per sample), version 0,
sample count 3 with exactly 24 bytes of sample data. -/
theorem c3_witness :
    List.length (⟨3, [⟨some 1, some 2, none⟩, ⟨some 3, some 4, none⟩, ⟨some 5, some 6, none⟩],
        none⟩ : ParsedTRUNBox).sample_data =
      (⟨3, [⟨some 1, some 2, none⟩, ⟨some 3, some 4, none⟩, ⟨some 5, some 6, none⟩],
        none⟩ : ParsedTRUNBox).sample_count ∧
    (⟨3, [⟨some 1, some 2, none⟩, ⟨some 3, some 4, none⟩, ⟨some 5, some 6, none⟩],
        none⟩ : ParsedTRUNBox).sample_data =
      (List.range (⟨3, [⟨some 1, some 2, none⟩, ⟨some 3, some 4, none⟩, ⟨some 5, some 6, none⟩],
        none⟩ : ParsedTRUNBox).sample_count).map
      (fun i => trunSampleView
        (List.drop (trunHeadSize 0x300 + i * trunSampleSize 0x300)
          ([0,0,0,3, 0,0,0,1, 0,0,0,2, 0,0,0,3, 0,0,0,4, 0,0,0,5, 0,0,0,6] : Reader)) 0x300) ∧
    (∀ s ∈ (⟨3, [⟨some 1, some 2, none⟩, ⟨some 3, some 4, none⟩, ⟨some 5, some 6, none⟩],
        none⟩ : ParsedTRUNBox).sample_data,
      (s.sample_duration.isSome = true ↔ (0x300 : Nat) &&& 0x000100 ≠ 0) ∧
      (s.sample_size.isSome = true ↔ (0x300 : Nat) &&& 0x000200 ≠ 0) ∧
      (s.sample_composition_time_offset.isSome = true ↔ (0x300 : Nat) &&& 0x000800 ≠ 0)) :=
  c3_trun_sample_list 0x300 0 [0,0,0,3, 0,0,0,1, 0,0,0,2, 0,0,0,3, 0,0,0,4, 0,0,0,5, 0,0,0,6]
    ⟨3, [⟨some 1, some 2, none⟩, ⟨some 3, some 4, none⟩, ⟨some 5, some 6, none⟩], none⟩
    [] (by decide)

/-- C4: each decoder returns the insufficient-data error (`none`) — and in
particular no record — on every input shorter than the decoder requires;
this covers in particular every input one byte short of any read or skip.
For TRUN the requirement depends on the sample count decoded from the first
four bytes. -/
theorem c4_short_input_is_error :
    (∀ (r : Reader) (flags : Nat),
      List.length r < tfhdSize flags → ParsedTFHDBox.parse r flags = none) ∧
    (∀ (r : Reader) (version : Nat),
      List.length r < tfdtSize version → ParsedTFDTBox.parse r version = none) ∧
    (∀ (r : Reader) (version : Nat),
      List.length r < mdhdSize version → ParsedMDHDBox.parse r version = none) ∧
    (∀ (r : Reader) (flags version : Nat),
      List.length r < trunSize flags (beVal (List.take 4 r)) →
        ParsedTRUNBox.parse r flags version = none) := by
  refine ⟨?_, ?_, ?_, ?_⟩
  · intro r flags hlen
    rw [tfhd_parse_eq, if_neg (by omega)]
  · intro r version hlen
    rw [tfdt_parse_eq, if_neg (by omega)]
  · intro r version hlen
    rw [mdhd_parse_eq, if_neg (by omega)]
  · intro r flags version hlen
    rw [trun_parse_eq, if_neg (by omega)]

/-- C4 witness: a 3-byte TFHD input (flags 0, needs 4), a 7-byte version-1
TFDT input (needs 8), a 17-byte version-0 MDHD input (needs 18), and a
7-byte TRUN input with sample count 1 and flags 0x100 (needs 8): all four
decoders return the error and no record. -/
theorem c4_witness :
    ParsedTFHDBox.parse [0, 0, 0] 0 = none ∧
    ParsedTFDTBox.parse [0, 0, 0, 0, 0, 0, 0] 1 = none ∧
    ParsedMDHDBox.parse [0, 0, 0, 0, 0, 0, 0, 0, 0, 0, 0, 0, 0, 0, 0, 0, 0] 0 = none ∧
    ParsedTRUNBox.parse [0, 0, 0, 1, 0, 0, 0] 0x100 0 = none :=
  ⟨c4_short_input_is_error.1 [0, 0, 0] 0 (by decide),
   c4_short_input_is_error.2.1 [0, 0, 0, 0, 0, 0, 0] 1 (by decide),
   c4_short_input_is_error.2.2.1 [0, 0, 0, 0, 0, 0, 0, 0, 0, 0, 0, 0, 0, 0, 0, 0, 0] 0
     (by decide),
   c4_short_input_is_error.2.2.2 [0, 0, 0, 1, 0, 0, 0] 0x100 0 (by decide)⟩

/-- C5: whenever the TFDT decoder succeeds it read one 64-bit value when
version = 1, and otherwise one 32-bit value zero-extended (so the result is
below 2^32); no flags are consulted — the decoder takes none. -/
theorem c5_tfdt_width (version : Nat) (r : Reader) (box : ParsedTFDTBox) (rest : Reader)
    (h : ParsedTFDTBox.parse r version = some (box, rest)) :
    (version = 1 →
      box.base_media_decode_time = beVal (List.take 8 r) ∧ rest = List.drop 8 r) ∧
    (version ≠ 1 →
      box.base_media_decode_time = beVal (List.take 4 r) ∧
      box.base_media_decode_time < 2 ^ 32 ∧ rest = List.drop 4 r) := by
  rw [tfdt_parse_eq] at h
  split at h
  · rw [Option.some.injEq, Prod.mk.injEq] at h
    obtain ⟨hbox, hrest⟩ := h
    subst hbox
    subst hrest
    constructor
    · intro hv
      simp [tfdtSize, hv]
    · intro hv
      have hb := beVal_take_lt r 4
      simp only [tfdtSize, hv, if_false, ite_false]
      refine ⟨trivial, ?_, trivial⟩
      simpa using hb
  · exact absurd h (by simp)

/-- C5 witness: version 0 on a 5-byte buffer — the decoder reads 4 bytes,
widens, and the value is below 2^32. -/
theorem c5_witness :
    ((0 : Nat) = 1 →
      (⟨16909060⟩ : ParsedTFDTBox).base_media_decode_time =
          beVal (List.take 8 ([1, 2, 3, 4, 9] : Reader)) ∧
        ([9] : Reader) = List.drop 8 ([1, 2, 3, 4, 9] : Reader)) ∧
    ((0 : Nat) ≠ 1 →
      (⟨16909060⟩ : ParsedTFDTBox).base_media_decode_time =
          beVal (List.take 4 ([1, 2, 3, 4, 9] : Reader)) ∧
        (⟨16909060⟩ : ParsedTFDTBox).base_media_decode_time < 2 ^ 32 ∧
        ([9] : Reader) = List.drop 4 ([1, 2, 3, 4, 9] : Reader)) :=
  c5_tfdt_width 0 [1, 2, 3, 4, 9] ⟨16909060⟩ [9] (by decide)

/-- C6: in the TRUN per-sample decode with flag 0x000800 set, the
composition time offset is the signed reinterpretation of the big-endian
32-bit word at its on-wire position — for version ≠ 0 via the signed read,
for version = 0 via the unsigned read reinterpreted as signed; both equal
`asSigned32` of the word, and `asSigned32` maps 0xFFFFFFFF to -1. -/
theorem c6_composition_time_offset (flags version : Nat) (r : Reader)
    (s : ParsedTRUNSample) (rest : Reader) (hf : flags &&& 0x000800 ≠ 0)
    (h : readTRUNSample r flags version = some (s, rest)) :
    s.sample_composition_time_offset =
      some (asSigned32 (beVal (List.take 4 (List.drop
        ((if flags &&& 0x000100 ≠ 0 then 4 else 0)
          + (if flags &&& 0x000200 ≠ 0 then 4 else 0)
          + (if flags &&& 0x000400 ≠ 0 then 4 else 0)) r)))) ∧
    asSigned32 0xFFFFFFFF = -1 := by
  rw [trunSample_parse_eq] at h
  split at h
  · rw [Option.some.injEq, Prod.mk.injEq] at h
    obtain ⟨hs, hrest⟩ := h
    subst hs
    refine ⟨?_, by decide⟩
    simp only [trunSampleView, hf, if_true, ite_true, if_pos, ne_eq, not_false_eq_true]
  · exact absurd h (by simp)

/-- C6 witness: version 0, flags 0x800 only, on-wire bytes FF FF FF FF —
the decoded offset is the signed reinterpretation, and it equals -1. -/
theorem c6_witness :
    (⟨none, none, some (-1)⟩ : ParsedTRUNSample).sample_composition_time_offset =
      some (asSigned32 (beVal (List.take 4 (List.drop
        ((if (0x800 : Nat) &&& 0x000100 ≠ 0 then 4 else 0)
          + (if (0x800 : Nat) &&& 0x000200 ≠ 0 then 4 else 0)
          + (if (0x800 : Nat) &&& 0x000400 ≠ 0 then 4 else 0))
        ([255, 255, 255, 255] : Reader))))) ∧
    asSigned32 0xFFFFFFFF = -1 :=
  c6_composition_time_offset 0x800 0 [255, 255, 255, 255] ⟨none, none, some (-1)⟩ []
    (by decide) (by decide)

/-- C7: for any flags and version, a TRUN whose decoded sample count is 0
and whose input covers the head (4-byte count, plus 4 bytes of data offset
when flag 0x000001 is set, plus a 4-byte first-sample-flags skip when flag
0x000004 is set) decodes successfully to an empty sample list, consuming
exactly those head bytes and nothing more. -/
theorem c7_trun_empty_run (flags version : Nat) (r : Reader)
    (hN : beVal (List.take 4 r) = 0) (hlen : trunHeadSize flags ≤ List.length r) :
    ParsedTRUNBox.parse r flags version =
      some ({ sample_count := 0, sample_data := [],
              data_offset := if flags &&& 0x000001 ≠ 0 then
                some (beVal (List.take 4 (List.drop 4 r))) else none },
            List.drop (trunHeadSize flags) r) := by
  rw [trun_parse_eq, hN]
  rw [if_pos (by simp [trunSize] ; omega)]
  simp [trunView, trunSize, hN]

/-- C7 witness: flags 0x5 (data offset and first-sample-flags skip),
version 0, a 13-byte buffer with sample count 0: the decoder returns an
empty run, data offset 9, and leaves exactly the final byte unconsumed. -/
theorem c7_witness :
    ParsedTRUNBox.parse ([0,0,0,0, 0,0,0,9, 1,2,3,4, 7] : Reader) 0x5 0 =
      some ({ sample_count := 0, sample_data := [],
              data_offset := if (0x5 : Nat) &&& 0x000001 ≠ 0 then
                some (beVal (List.take 4 (List.drop 4
                  ([0,0,0,0, 0,0,0,9, 1,2,3,4, 7] : Reader)))) else none },
            List.drop (trunHeadSize 0x5) ([0,0,0,0, 0,0,0,9, 1,2,3,4, 7] : Reader)) :=
  c7_trun_empty_run 0x5 0 [0,0,0,0, 0,0,0,9, 1,2,3,4, 7] (by decide) (by decide)

/-- C8 counterexample: the claim says packed language 0x5595 decodes to
"eng".  On a concrete MDHD box whose language field is 0x5595 the decoder
produces "ulu" (fields 21, 12, 21), not "eng"; directly,
`mdhdLanguageString 0x5595 = "ulu"`. -/
theorem c8_counterexample :
    ParsedMDHDBox.parse
        ([0,0,0,0, 0,0,0,0, 0,0,3,232, 0,0,0,0, 0x55,0x95] : Reader) 0 =
      some ({ timescale := 1000, language := "ulu" }, []) ∧
    mdhdLanguageString 0x5595 = "ulu" ∧ ("ulu" : String) ≠ "eng" := by
  refine ⟨by decide, by decide, by decide⟩

/-- C8 amended: the packed value that decodes to "eng" is 0x15C7
(fields 5, 14, 7, i.e. the offsets of the letters e, n, g); the MDHD
decoder applied to an input whose packed 16-bit language field equals
0x15C7 produces the language text "eng". -/
theorem c8_amended_eng :
    ParsedMDHDBox.parse
        ([0,0,0,0, 0,0,0,0, 0,0,3,232, 0,0,0,0, 0x15,0xC7] : Reader) 0 =
      some ({ timescale := 1000, language := "eng" }, []) ∧
    mdhdLanguageString 0x15C7 = "eng" := by
  refine ⟨by decide, by decide⟩

/-- C9 counterexample: the claim asserts there exists an input whose
unpacked language characters fall outside the valid text range, making the
MDHD decoder succeed with an empty language string.  No such input exists:
every unpacked unit is at most 0x9F, far below the invalid (surrogate)
range, so the text decode always succeeds and the language is never the
empty string. -/
theorem c9_counterexample :
    ¬ ∃ (r : Reader) (version : Nat) (box : ParsedMDHDBox) (rest : Reader),
        ParsedMDHDBox.parse r version = some (box, rest) ∧ box.language = "" := by
  rintro ⟨r, version, box, rest, h, hlang⟩
  rw [mdhd_parse_eq] at h
  split at h
  · rw [Option.some.injEq, Prod.mk.injEq] at h
    obtain ⟨hbox, _⟩ := h
    subst hbox
    simp only [mdhdView] at hlang
    have hl : beVal (List.take 2 (List.drop ((if version = 1 then 16 else 8) + 8) r))
        < 65536 := by
      have := beVal_take_lt (List.drop ((if version = 1 then 16 else 8) + 8) r) 2
      simpa using this
    exact mdhdLanguageString_ne_empty _ hl hlang
  · exact absurd h (by simp)

/-- C9 amended: for every input on which the MDHD decoder succeeds, the
language field is nonempty — the empty-string fallback in the code is
unreachable, because the three unpacked 16-bit units are always at most
0x9F and hence always form valid text.  (The fallback, not the error path,
is what the code would take on a decode failure, so a language decode
failure still could not fail the box; there merely is no failing input.) -/
theorem c9_amended_language_nonempty (r : Reader) (version : Nat) (box : ParsedMDHDBox)
    (rest : Reader) (h : ParsedMDHDBox.parse r version = some (box, rest)) :
    box.language ≠ "" := by
  rw [mdhd_parse_eq] at h
  split at h
  · rw [Option.some.injEq, Prod.mk.injEq] at h
    obtain ⟨hbox, _⟩ := h
    subst hbox
    simp only [mdhdView]
    have hl : beVal (List.take 2 (List.drop ((if version = 1 then 16 else 8) + 8) r))
        < 65536 := by
      have := beVal_take_lt (List.drop ((if version = 1 then 16 else 8) + 8) r) 2
      simpa using this
    exact mdhdLanguageString_ne_empty _ hl
  · exact absurd h (by simp)

/-- C9 witness: a concrete version-0 MDHD box (language field 0x55C4,
i.e. "und") decodes with a nonempty language. -/
theorem c9_witness :
    ({ timescale := 1000, language := "und" } : ParsedMDHDBox).language ≠ "" :=
  c9_amended_language_nonempty
    ([0,0,0,0, 0,0,0,0, 0,0,3,232, 0,0,0,0, 0x55,0xC4] : Reader) 0
    { timescale := 1000, language := "und" } [] (by decide)

/-- C10: untested flag bits are ignored.  Two flags words agreeing on bits
0x000001, 0x000002, 0x000008, 0x000010 give byte-for-byte identical TFHD
decodes (same record or same error, same bytes consumed), and two flags
words agreeing on bits 0x000001, 0x000004, 0x000100, 0x000200, 0x000400,
0x000800 give identical TRUN decodes at any fixed version. -/
theorem c10_untested_bits_ignored :
    (∀ (f g : Nat) (r : Reader),
      f &&& 0x000001 = g &&& 0x000001 → f &&& 0x000002 = g &&& 0x000002 →
      f &&& 0x000008 = g &&& 0x000008 → f &&& 0x000010 = g &&& 0x000010 →
      ParsedTFHDBox.parse r f = ParsedTFHDBox.parse r g) ∧
    (∀ (f g version : Nat) (r : Reader),
      f &&& 0x000001 = g &&& 0x000001 → f &&& 0x000004 = g &&& 0x000004 →
      f &&& 0x000100 = g &&& 0x000100 → f &&& 0x000200 = g &&& 0x000200 →
      f &&& 0x000400 = g &&& 0x000400 → f &&& 0x000800 = g &&& 0x000800 →
      ParsedTRUNBox.parse r f version = ParsedTRUNBox.parse r g version) := by
  constructor
  · intro f g r h1 h2 h8 h16
    rw [tfhd_parse_eq, tfhd_parse_eq]
    simp only [tfhdSize, tfhdView, h1, h2, h8, h16]
  · intro f g version r h1 h4 ha hb hc hd
    rw [trun_parse_eq, trun_parse_eq]
    simp only [trunSize, trunHeadSize, trunSampleSize, trunView, trunSampleView,
      h1, h4, ha, hb, hc, hd]

/-- C10 witness: flags 0 and 0x20 agree on every tested bit (0x20 is tested
by neither decoder), and indeed decode identically on concrete buffers. -/
theorem c10_witness :
    ParsedTFHDBox.parse ([0,0,0,1, 5] : Reader) 0 =
      ParsedTFHDBox.parse ([0,0,0,1, 5] : Reader) 0x20 ∧
    ParsedTRUNBox.parse ([0,0,0,0, 5] : Reader) 0 0 =
      ParsedTRUNBox.parse ([0,0,0,0, 5] : Reader) 0x20 0 :=
  ⟨c10_untested_bits_ignored.1 0 0x20 [0,0,0,1, 5]
      (by decide) (by decide) (by decide) (by decide),
   c10_untested_bits_ignored.2 0 0x20 0 [0,0,0,0, 5]
      (by decide) (by decide) (by decide) (by decide) (by decide) (by decide)⟩

end Mp4
